import Mathlib

/-!
Verification of the taraffic-vm TPU core against its specification.

The definitions below are a shallow embedding of the Rust sources:
`src/shared.rs` (data model), `src/tpu/alu/mod.rs`, `src/tpu/mmu/mod.rs`,
`src/tpu/flow/mod.rs`, `src/tpu/io_matrix/mod.rs` (instruction bodies) and
`src/tpu/mod.rs` (TPU state, helpers, execution engine), plus the numeric
part of the assembly parser in `src/rgal/mod.rs`.

Machine integers: Rust `u16` values are embedded as `Nat`, with `% 65536`
written exactly where the sources wrap, and `usize` as `Nat`.  Operations
that can panic in the sources (out-of-bounds indexing, out-of-range shift
amounts, checked-mode `usize` underflow) return `Option`, `none` standing
for the panic.
-/

namespace Taraffic

/-- The ten registers, from `shared.rs` (`#[repr(u8)] pub enum Register`). -/
inductive Register where
  | A | X | Y | R0 | R1 | R2 | R3 | R4 | R5 | R6
deriving DecidableEq, Repr

/-- Discriminant of a register, as used by `register as usize` in the sources. -/
def Register.toNat : Register → Nat
  | .A => 0 | .X => 1 | .Y => 2 | .R0 => 3 | .R1 => 4
  | .R2 => 5 | .R3 => 6 | .R4 => 7 | .R5 => 8 | .R6 => 9

/-- Operand payload, from `shared.rs` (`enum OperandValueType`). -/
inductive OperandValueType where
  | Immediate (v : Nat)
  | Register (r : Register)
deriving DecidableEq, Repr

/-- Network packet, from `shared.rs` (`struct NetPacket`). -/
structure NetPacket where
  sender : Nat
  target : Nat
  data : Nat
deriving DecidableEq, Repr

/-- Halt reasons, from `shared.rs` (`enum HaltReason`). -/
inductive HaltReason where
  | Div0 | HLTOpcode | InvalidPC | InvalidValue | StackOverflow | IndexOutOfRange
deriving DecidableEq, Repr

/-- Result of executing an instruction body, from `shared.rs` (`enum ExecuteResult`). -/
inductive ExecuteResult where
  | PCAdvance
  | NoPCAdvance
  | PCModified
  | Halt (reason : HaltReason)
deriving DecidableEq, Repr

/-- The instruction sum type, from `shared.rs` (`enum Instruction`). -/
inductive Instruction where
  | PUSH (v : OperandValueType)
  | POP (r : Register)
  | PEEK (r : Register) (v : OperandValueType)
  | SCR
  | RSP (r : Register)
  | XMIT (r : Register) (v : OperandValueType)
  | RECV
  | TXBS
  | RXBS
  | ADD (a b : Register)
  | SUB (a b : Register)
  | MUL (a b : Register)
  | DIV (a b : Register)
  | MOD (a b : Register)
  | AND (a b : Register)
  | OR (a b : Register)
  | XOR (a b : Register)
  | NOT (a : Register)
  | INC (a : Register)
  | DEC (a : Register)
  | SLL (t s : Register) (v : OperandValueType)
  | SLC (t s : Register) (v : OperandValueType)
  | SLR (t s : Register) (v : OperandValueType)
  | SRC (t s : Register) (v : OperandValueType)
  | ROL (t s : Register) (v : OperandValueType)
  | ROR (t s : Register) (v : OperandValueType)
  | RCY (a b : Register)
  | RMV (a b : Register)
  | LDR (r : Register) (v : OperandValueType)
  | LDO (r : Register) (v : OperandValueType) (o : Register)
  | LDOI (r : Register) (v : OperandValueType) (o : Register)
  | STM (a v : OperandValueType)
  | STMO (a v : OperandValueType) (o : Register)
  | SMOI (a v : OperandValueType) (o : Register)
  | DPW (p v : OperandValueType)
  | DPR (r : Register) (p : OperandValueType)
  | DPWW (v : OperandValueType)
  | DPRW (r : Register)
  | APW (p v : OperandValueType)
  | APR (r : Register) (p : OperandValueType)
  | NOP
  | SLP (v : OperandValueType)
  | WRX
  | HLT
  | JMP (v : OperandValueType)
  | BEZ (v : OperandValueType) (r : Register)
  | BNZ (v : OperandValueType) (r : Register)
  | BEQ (v : OperandValueType) (r : Register) (w : OperandValueType)
  | BNE (v : OperandValueType) (r : Register) (w : OperandValueType)
  | BGE (v : OperandValueType) (r : Register) (w : OperandValueType)
  | BLE (v : OperandValueType) (r : Register) (w : OperandValueType)
  | BGT (v : OperandValueType) (r : Register) (w : OperandValueType)
  | BLT (v : OperandValueType) (r : Register) (w : OperandValueType)
  | JPR (v : OperandValueType)
  | BREZ (v : OperandValueType) (r : Register)
  | BRNZ (v : OperandValueType) (r : Register)
  | BREQ (v : OperandValueType) (r : Register) (w : OperandValueType)
  | BRNE (v : OperandValueType) (r : Register) (w : OperandValueType)
  | BRGE (v : OperandValueType) (r : Register) (w : OperandValueType)
  | BRLE (v : OperandValueType) (r : Register) (w : OperandValueType)
  | BRGT (v : OperandValueType) (r : Register) (w : OperandValueType)
  | BRLT (v : OperandValueType) (r : Register) (w : OperandValueType)
  | JSR (v : OperandValueType)
  | RTS

/-- A decoded, in-flight instruction, from the `DecodedOpcode` record used by
`src/tpu/mod.rs`.  The source record also carries a function pointer
(`function: fn(&mut TPU, &[Operand]) -> bool`); here that executor is passed to
`tick` as an explicit argument, since a shallow embedding has no function
pointers inside data. -/
structure DecodedOpcode where
  operands : List OperandValueType
  cycles : Nat
  pc_modified : Bool

/-- The complete VM state, from `struct TpuState` in `src/tpu/mod.rs`.
Fixed-size Rust arrays are embedded as lists of the corresponding length
(registers: 10, RAM: 128, analog pins: 4, digital pins: 8). -/
structure TpuState where
  stack : List Nat
  analog_pins : List Nat
  digital_pins : List Bool
  analog_pin_config : List Bool
  digital_pin_config : List Bool
  ram : List Nat
  rom : List Instruction
  network_address : Nat
  incoming_packets : List NetPacket
  outgoing_packets : List NetPacket
  registers : List Nat
  wait_cycles : Nat
  program_counter : Nat
  decoded_opcode : Option DecodedOpcode
  halted : Bool

/-- `TPU::STACK_SIZE` in `src/tpu/mod.rs`. -/
def STACK_SIZE : Nat := 16

/-- `TPU::NET_BUFFER_SIZE` in `src/tpu/mod.rs`. -/
def NET_BUFFER_SIZE : Nat := 8

/-- `TPU::RAM_SIZE` in `src/tpu/mod.rs`. -/
def RAM_SIZE : Nat := 128

/-- `TPU::read_register`: indexes the register array (always of length 10). -/
def read_register (s : TpuState) (r : Register) : Nat :=
  s.registers.getD r.toNat 0

/-- `TPU::write_register`. -/
def write_register (s : TpuState) (r : Register) (v : Nat) : TpuState :=
  { s with registers := s.registers.set r.toNat v }

/-- `TPU::get_operand_value`. -/
def get_operand_value (s : TpuState) (operand : OperandValueType) : Nat :=
  match operand with
  | .Register reg => read_register s reg
  | .Immediate val => val

/-- `TPU::push`: `Vec::push` appends at the back (stack bottom is list head). -/
def push (s : TpuState) (value : Nat) : TpuState :=
  { s with stack := s.stack ++ [value] }

/-- `TPU::read_ram`: out-of-range reads return 0. -/
def read_ram (s : TpuState) (address : Nat) : Nat :=
  if address < s.ram.length then s.ram.getD address 0 else 0

/-- `TPU::write_ram`: out-of-range writes are dropped. -/
def write_ram (s : TpuState) (address : Nat) (value : Nat) : TpuState :=
  if address < s.ram.length then { s with ram := s.ram.set address value } else s

/-- `TPU::send_packet`: appends `{sender = my address, target, data}` to the
back of the outgoing queue (no capacity check here; `op_xmit` checks). -/
def send_packet (s : TpuState) (address : Nat) (data : Nat) : TpuState :=
  { s with outgoing_packets :=
      s.outgoing_packets ++ [⟨s.network_address, address, data⟩] }

/-- Rust `u16::wrapping_sub` for operands already in `[0, 2^16)`. -/
def wrapping_sub16 (a b : Nat) : Nat := (a + (65536 - b % 65536)) % 65536

/-- Rust `u16::wrapping_add` on `Nat`. -/
def wrapping_add16 (a b : Nat) : Nat := (a + b) % 65536

/-- Rust `u16 << s`: the result keeps the low 16 bits; a shift amount of 16 or
more is an overflow (a panic under the test profile), embedded as `none`. -/
def u16_shl (v s : Nat) : Option Nat :=
  if s < 16 then some ((v <<< s) % 65536) else none

/-- Rust `u16 >> s`: shift amounts of 16 or more are an overflow, `none`. -/
def u16_shr (v s : Nat) : Option Nat :=
  if s < 16 then some (v >>> s) else none

/-- Rust `usize` subtraction under the overflow-checked (test) profile:
underflow is a panic, embedded as `none`. -/
def checked_sub (a b : Nat) : Option Nat :=
  if b ≤ a then some (a - b) else none

/-- `op_mul` from `src/tpu/alu/mod.rs` lines 43-49: reads both operand
registers and stores `a.wrapping_sub(b)` — not a product — in the
accumulator. -/
def op_mul (s : TpuState) (left right : Register) : TpuState × ExecuteResult :=
  let a := read_register s left
  let b := read_register s right
  let result := wrapping_sub16 a b
  (write_register s Register.A result, .PCAdvance)

/-- `op_rol` from `src/tpu/alu/mod.rs` lines 204-215: computes
`(value << rotate) | (value >> (16 - rotate))` with `rotate = n % 16`.
When `rotate = 0` the right shift amount is 16, an out-of-range `u16` shift
(`none`). -/
def op_rol (s : TpuState) (target value : Register) (rotate : OperandValueType) :
    Option (TpuState × ExecuteResult) :=
  let v := read_register s value
  let rot := get_operand_value s rotate % 16
  match u16_shl v rot, u16_shr v (16 - rot) with
  | some l, some r => some (write_register s target (l ||| r), .PCAdvance)
  | _, _ => none

/-- `op_peek` from `src/tpu/mmu/mod.rs` lines 39-55: halts with
`IndexOutOfRange` when `index > STACK_SIZE || index > stack.len()`; otherwise
indexes `stack[index]`, which is out of bounds — a panic, `none` — exactly
when `index = stack.len()`. -/
def op_peek (s : TpuState) (operand_1 : Register) (operand_2 : OperandValueType) :
    Option (TpuState × ExecuteResult) :=
  let index := get_operand_value s operand_2
  if index > STACK_SIZE || index > s.stack.length then
    some (s, .Halt .IndexOutOfRange)
  else
    match s.stack[index]? with
    | some value => some (write_register s operand_1 value, .PCAdvance)
    | none => none

/-- `op_ldo` from `src/tpu/mmu/mod.rs`: loads `RAM[addr + offset_reg]` into the
target register. -/
def op_ldo (s : TpuState) (target : Register) (source : OperandValueType)
    (offset : Register) : TpuState × ExecuteResult :=
  let address := get_operand_value s source
  let offset_amount := read_register s offset
  let value := read_ram s (address + offset_amount)
  (write_register s target value, .PCAdvance)

/-- `op_ldoi` from `src/tpu/mmu/mod.rs` lines 135-144: `op_ldo` followed by a
wrapping post-increment that re-reads the offset register after the load. -/
def op_ldoi (s : TpuState) (target : Register) (source : OperandValueType)
    (offset : Register) : TpuState × ExecuteResult :=
  let s1 := (op_ldo s target source offset).1
  (write_register s1 offset (wrapping_add16 (read_register s1 offset) 1), .PCAdvance)

/-- `set_program_counter_conditionally` from `src/tpu/flow/mod.rs` lines
14-34: the bounds test is `target > rom.len() - 1`, whose `usize` subtraction
underflows (panics, `none`) on an empty ROM. -/
def set_program_counter_conditionally (s : TpuState) (condition : Bool)
    (address : Nat) : Option (TpuState × ExecuteResult) :=
  let target := if condition then address else s.program_counter + 1
  match checked_sub s.rom.length 1 with
  | none => none
  | some last =>
    if target > last then some (s, .Halt .InvalidPC)
    else some ({ s with program_counter := target }, .PCModified)

/-- `op_jmp` from `src/tpu/flow/mod.rs`. -/
def op_jmp (s : TpuState) (target : OperandValueType) :
    Option (TpuState × ExecuteResult) :=
  set_program_counter_conditionally s true (get_operand_value s target)

/-- `op_bez` from `src/tpu/flow/mod.rs` lines 36-41. -/
def op_bez (s : TpuState) (target : OperandValueType) (source : Register) :
    Option (TpuState × ExecuteResult) :=
  let address := get_operand_value s target
  let value := read_register s source
  set_program_counter_conditionally s (value == 0) address

/-- `op_jsr` from `src/tpu/flow/mod.rs` lines 235-254: stack-full check first,
then target validation; the return address (`old_pc as u16`) is pushed only
after the program counter was successfully modified. -/
def op_jsr (s : TpuState) (target : OperandValueType) :
    Option (TpuState × ExecuteResult) :=
  let address := get_operand_value s target
  if s.stack.length == STACK_SIZE then some (s, .Halt .StackOverflow)
  else
    let old_pc := s.program_counter
    match set_program_counter_conditionally s true address with
    | none => none
    | some (s1, result) =>
      match result with
      | .PCModified => some (push s1 (old_pc % 65536), result)
      | _ => some (s1, result)

/-- `op_xmit` from `src/tpu/io_matrix/mod.rs` lines 113-128: enqueues via
`send_packet` only when the outgoing queue is below `NET_BUFFER_SIZE`, and
never halts. -/
def op_xmit (s : TpuState) (target : Register) (data : OperandValueType) :
    TpuState × ExecuteResult :=
  let t := read_register s target
  let d := get_operand_value s data
  if s.outgoing_packets.length < NET_BUFFER_SIZE then
    (send_packet s t d, .PCAdvance)
  else
    (s, .PCAdvance)

/-- `TPU::decode_next` from `src/tpu/mod.rs` lines 405-410: fetches
`rom[program_counter]` — a panic (`none`) when the index is out of bounds —
then dispatches on the opcode.  The dispatch table (the per-opcode `decode_op_*`
functions) is passed in as `dispatch`. -/
def decode_next (dispatch : Instruction → TpuState → Option TpuState)
    (s : TpuState) : Option TpuState :=
  match s.rom[s.program_counter]? with
  | none => none
  | some instruction => dispatch instruction s

/-- `TPU::tick` from `src/tpu/mod.rs` lines 380-394: first applies
`wait_cycles.saturating_sub(1)` (`Nat` subtraction saturates the same way),
then returns if halted or still waiting; otherwise executes a pending decoded
opcode (`take()` clears the slot first) or decodes the next instruction.
`execFn` stands for the function pointer stored in the source's
`DecodedOpcode`. -/
def tick (dispatch : Instruction → TpuState → Option TpuState)
    (execFn : DecodedOpcode → TpuState → Option TpuState)
    (s : TpuState) : Option TpuState :=
  let s1 := { s with wait_cycles := s.wait_cycles - 1 }
  if s1.halted || s1.wait_cycles > 0 then some s1
  else
    match s1.decoded_opcode with
    | some op => execFn op { s1 with decoded_opcode := none }
    | none => decode_next dispatch s1

/-- `TPU::new` from `src/tpu/mod.rs`: all registers, RAM, pins, queues and
counters are zeroed (the constructor zero-initialises and `reset()` re-clears;
input-configured pins are skipped by `reset` but already hold the zero
value). -/
def TPU_new (network_address : Nat) (analog_pin_config digital_pin_config : List Bool)
    (program : List Instruction) : TpuState :=
  { stack := []
    analog_pins := List.replicate 4 0
    digital_pins := List.replicate 8 false
    analog_pin_config := analog_pin_config
    digital_pin_config := digital_pin_config
    ram := List.replicate RAM_SIZE 0
    rom := program
    network_address := network_address
    incoming_packets := []
    outgoing_packets := []
    registers := List.replicate 10 0
    wait_cycles := 0
    program_counter := 0
    decoded_opcode := none
    halted := false }

/-- Grammar rules reaching `parse_any_operand_from_pair` in `src/rgal/mod.rs`. -/
inductive Rule where
  | register | hex_number | binary_number | decimal_number
deriving DecidableEq, Repr

/-- Rust `char::to_digit(radix)`, operating on the character's scalar value:
`'0'..'9'` give 0-9, `'a'..'z'` and `'A'..'Z'` give 10-35, then the digit must
be below the radix. -/
def char_to_digit (c : Char) (radix : Nat) : Option Nat :=
  if 48 ≤ c.toNat ∧ c.toNat ≤ 57 then
    if c.toNat - 48 < radix then some (c.toNat - 48) else none
  else if 97 ≤ c.toNat ∧ c.toNat ≤ 122 then
    if c.toNat - 97 + 10 < radix then some (c.toNat - 97 + 10) else none
  else if 65 ≤ c.toNat ∧ c.toNat ≤ 90 then
    if c.toNat - 65 + 10 < radix then some (c.toNat - 65 + 10) else none
  else none

/-- One accumulation step of `u16::from_str_radix`. -/
def from_digit_step (radix acc : Nat) (c : Char) : Nat :=
  acc * radix + (char_to_digit c radix).getD 0

/-- Digit-accumulation loop of `u16::from_str_radix`: each step is a checked
multiply-add against `u16::MAX`; exceeding 65535 is an overflow error
(`none`). -/
def from_str_radix_go (radix acc : Nat) : List Char → Option Nat
  | [] => some acc
  | c :: rest =>
    match char_to_digit c radix with
    | none => none
    | some d =>
      let acc2 := acc * radix + d
      if 65535 < acc2 then none else from_str_radix_go radix acc2 rest

/-- Rust `u16::from_str_radix` on an unsigned digit string (the grammar admits
no sign characters): empty input is an error, otherwise the checked
accumulation loop runs. -/
def from_str_radix_u16 (radix : Nat) (cs : List Char) : Option Nat :=
  match cs with
  | [] => none
  | _ => from_str_radix_go radix 0 cs

/-- Rust `str::trim_start_matches("0x")`: strips every leading `0x`. -/
def trim_0x : List Char → List Char
  | [] => []
  | [c] => [c]
  | c1 :: c2 :: rest =>
    if c1 = '0' ∧ c2 = 'x' then trim_0x rest else c1 :: c2 :: rest

/-- Rust `str::trim_start_matches("0b")`: strips every leading `0b`. -/
def trim_0b : List Char → List Char
  | [] => []
  | [c] => [c]
  | c1 :: c2 :: rest =>
    if c1 = '0' ∧ c2 = 'b' then trim_0b rest else c1 :: c2 :: rest

/-- `parse_any_operand_from_pair` from `src/rgal/mod.rs` lines 419-490,
operating on the matched token text of the given rule; `none` is a parse
error (`pest::error::Error`). -/
def parse_any_operand_from_pair (rule : Rule) (tok : List Char) :
    Option OperandValueType :=
  match rule with
  | .register =>
    if tok = ['A'] then some (.Register .A)
    else if tok = ['X'] then some (.Register .X)
    else if tok = ['Y'] then some (.Register .Y)
    else if tok = ['R', '0'] then some (.Register .R0)
    else if tok = ['R', '1'] then some (.Register .R1)
    else if tok = ['R', '2'] then some (.Register .R2)
    else if tok = ['R', '3'] then some (.Register .R3)
    else if tok = ['R', '4'] then some (.Register .R4)
    else if tok = ['R', '5'] then some (.Register .R5)
    else if tok = ['R', '6'] then some (.Register .R6)
    else none
  | .hex_number => (from_str_radix_u16 16 (trim_0x tok)).map .Immediate
  | .binary_number => (from_str_radix_u16 2 (trim_0b tok)).map .Immediate
  | .decimal_number => (from_str_radix_u16 10 tok).map .Immediate

/-- Modelled from the spec: the pest grammar file `rgal.pest` is not among the
sources, so the token shape of a decimal literal follows spec §4.1:
`[0-9]+`. -/
def decimal_digit (c : Char) : Prop := 48 ≤ c.toNat ∧ c.toNat ≤ 57

/-- Modelled from the spec: hex-literal digit per spec §4.1 (`[0-9a-fA-F]`,
after the `0x` marker). -/
def hex_digit (c : Char) : Prop :=
  (48 ≤ c.toNat ∧ c.toNat ≤ 57) ∨ (97 ≤ c.toNat ∧ c.toNat ≤ 102) ∨
    (65 ≤ c.toNat ∧ c.toNat ≤ 70)

/-- Modelled from the spec: binary-literal digit per spec §4.1 (`[01]`, after
the `0b` marker). -/
def binary_digit (c : Char) : Prop := c.toNat = 48 ∨ c.toNat = 49

instance : DecidablePred decimal_digit := fun c => by
  unfold decimal_digit; infer_instance

instance : DecidablePred hex_digit := fun c => by
  unfold hex_digit; infer_instance

instance : DecidablePred binary_digit := fun c => by
  unfold binary_digit; infer_instance

/-- The numeric value denoted by a digit string in the given radix. -/
def numeral_value (radix : Nat) (cs : List Char) : Nat :=
  cs.foldl (from_digit_step radix) 0

/-- Concrete input for claim C1: a TPU state whose `A` register holds 5 and
whose `X` register holds 3 (all other state zeroed, empty ROM irrelevant to
the ALU body). -/
def stateC1 : TpuState :=
  { stack := []
    analog_pins := List.replicate 4 0
    digital_pins := List.replicate 8 false
    analog_pin_config := List.replicate 4 false
    digital_pin_config := List.replicate 8 false
    ram := List.replicate 128 0
    rom := []
    network_address := 1
    incoming_packets := []
    outgoing_packets := []
    registers := [5, 3, 0, 0, 0, 0, 0, 0, 0, 0]
    wait_cycles := 0
    program_counter := 0
    decoded_opcode := none
    halted := false }

/-- Concrete input for claim C2: `X` holds 0x8001. -/
def stateC2 : TpuState :=
  { stateC1 with registers := [0, 32769, 0, 0, 0, 0, 0, 0, 0, 0] }

/-- Concrete input for claim C4: a halted TPU with three wait cycles left. -/
def stateC4 : TpuState :=
  { stateC1 with halted := true, wait_cycles := 3 }

/-- Concrete input for claim C5: a one-instruction ROM, the program counter on
its last (only) index, and a nonzero value in `A`. -/
def stateC5 : TpuState :=
  { stateC1 with rom := [Instruction.HLT],
                 registers := [1, 0, 0, 0, 0, 0, 0, 0, 0, 0] }

/-- Concrete input for claim C6: a three-instruction ROM with the program
counter at index 1. -/
def stateC6 : TpuState :=
  { stateC1 with rom := [Instruction.NOP, Instruction.JSR (.Immediate 2), Instruction.HLT],
                 program_counter := 1 }

/-- Concrete input for claim C10: offset register `X` holds 5 and `RAM[5]`
holds 42. -/
def stateC10 : TpuState :=
  { stateC1 with registers := [0, 5, 0, 0, 0, 0, 0, 0, 0, 0],
                 ram := (List.replicate 128 0).set 5 42 }

/-- Reading back the just-written slot of a list. -/
theorem getD_set_self (l : List Nat) (i v : Nat) (h : i < l.length) :
    (l.set i v).getD i 0 = v := by
  induction l generalizing i with
  | nil => simp at h
  | cons a t ih =>
    cases i with
    | zero => rfl
    | succ j =>
      simp only [List.set]
      exact ih j (by simpa using h)

/-- C1: the claim says `MUL` writes `A = (a * b) mod 2^16`; the body of
`op_mul` instead computes `a.wrapping_sub(b)`.  At `a = 5`, `b = 3` the code
leaves `A = 2`, while `5 * 3 = 15`: the code contradicts its own test suite
(`test_op_mul` asserts `5 * 3 == 15`). -/
theorem op_mul_is_sub_at_5_3 :
    read_register (op_mul stateC1 Register.A Register.X).1 Register.A = 2 ∧
    (5 * 3) % 65536 = 15 ∧ (2 : Nat) ≠ 15 := by
  refine ⟨rfl, by decide, by decide⟩

/-- C2: the claim says `ROL` with `n mod 16 = 0` writes `target = v` and never
shifts a `u16` by 16 or more.  With `n = 16` the body evaluates
`value >> (16 - 0)`, an out-of-range shift, so execution panics (`none`)
instead of writing `v`. -/
theorem op_rol_zero_rotate_overflows :
    op_rol stateC2 Register.A Register.X (.Immediate 16) = none := rfl

/-- C3 counterexample: on an empty stack, index 0 exceeds neither the depth
nor the capacity, so the claim requires a successful write of `stack[0]`; the
body instead indexes at the stack length and panics (`none`), neither halting
nor writing. -/
theorem op_peek_empty_stack_panics :
    op_peek stateC1 Register.A (.Immediate 0) = none ∧
    stateC1.stack.length = 0 :=
  ⟨rfl, rfl⟩

/-- C3 (amended): `PEEK r, i` halts with `IndexOutOfRange` when `i` exceeds
the stack depth or the capacity 16; it writes `stack[i]` into `r` when
`i` is strictly below the depth; and when `i` equals the depth (and is at most
16) the body's indexing is out of bounds — a panic — so the indexing is not
always in bounds. -/
theorem op_peek_cases (s : TpuState) (r : Register) (op : OperandValueType) :
    op_peek s r op =
      if get_operand_value s op > 16 || get_operand_value s op > s.stack.length
      then some (s, .Halt .IndexOutOfRange)
      else if get_operand_value s op < s.stack.length
      then some (write_register s r (s.stack.getD (get_operand_value s op) 0),
                 .PCAdvance)
      else none := by
  unfold op_peek STACK_SIZE
  by_cases h1 : get_operand_value s op > 16 || get_operand_value s op > s.stack.length
  · simp [h1]
  · simp only [h1, if_neg, Bool.false_eq_true, if_false]
    by_cases h2 : get_operand_value s op < s.stack.length
    · have hsome : s.stack[get_operand_value s op]? =
          some (s.stack.getD (get_operand_value s op) 0) := by
        rw [List.getElem?_eq_getElem h2]
        rw [List.getD_eq_getElem?_getD, List.getElem?_eq_getElem h2]
        rfl
      rw [hsome]
      simp [h2]
    · have hnone : s.stack[get_operand_value s op]? = none := by
        rw [List.getElem?_eq_none]
        omega
      rw [hnone]
      simp [h2]

/-- C4 counterexample: a halted TPU with a positive wait counter is changed by
`tick()`: the saturating decrement of `wait_cycles` happens before the halted
check. -/
theorem tick_halted_not_noop :
    tick (fun _ s => some s) (fun _ s => some s) stateC4 ≠ some stateC4 ∧
    stateC4.halted = true := by
  constructor
  · intro hcontra
    have hcast : (some { stateC4 with wait_cycles := 2 } : Option TpuState) =
        some stateC4 := hcontra
    have h2 := congrArg TpuState.wait_cycles (Option.some.inj hcast)
    exact absurd h2 (by decide)
  · rfl

/-- C4 (amended): when the halted flag is set, `tick()` leaves every component
of the TPU state unchanged except the wait-cycle counter, which it decrements
by one, saturating at zero (so a halted state with `wait_cycles = 0` is fully
unchanged). -/
theorem tick_halted_only_decrements_wait
    (dispatch : Instruction → TpuState → Option TpuState)
    (execFn : DecodedOpcode → TpuState → Option TpuState)
    (s : TpuState) (h : s.halted = true) :
    tick dispatch execFn s = some { s with wait_cycles := s.wait_cycles - 1 } := by
  unfold tick
  simp [h]

/-- Witness for C4's amended theorem at the concrete halted state. -/
theorem tick_halted_only_decrements_wait_w :
    tick (fun _ s => some s) (fun _ s => some s) stateC4 =
      some { stateC4 with wait_cycles := 2 } :=
  tick_halted_only_decrements_wait (fun _ s => some s) (fun _ s => some s)
    stateC4 rfl

/-- C5 counterexample: with a one-word ROM, `BEZ 0, A` at the last ROM index
with `A = 1` (not taken, in-range taken-target 0) halts with `InvalidPC` and
leaves the program counter unchanged, where the claim requires `PC = PC + 1`
without halting. -/
theorem op_bez_last_index_halts :
    op_bez stateC5 (.Immediate 0) Register.A = some (stateC5, .Halt .InvalidPC) ∧
    read_register stateC5 Register.A = 1 ∧
    stateC5.program_counter = 0 ∧ stateC5.rom.length = 1 :=
  ⟨rfl, rfl, rfl, rfl⟩

/-- C5 (amended): for `BEZ v, r` with the taken-target inside `[0, |ROM|)`:
if `r` reads 0 the program counter becomes `v`; if `r` reads nonzero the
program counter becomes `PC + 1` when `PC + 1 < |ROM|`, but at the last ROM
index the fall-through target is out of range and the instruction halts with
`InvalidPC`, leaving the program counter unchanged. -/
theorem op_bez_spec (s : TpuState) (target : OperandValueType) (r : Register)
    (hv : get_operand_value s target < s.rom.length) :
    op_bez s target r =
      if read_register s r = 0
      then some ({ s with program_counter := get_operand_value s target }, .PCModified)
      else if s.program_counter + 1 < s.rom.length
      then some ({ s with program_counter := s.program_counter + 1 }, .PCModified)
      else some (s, .Halt .InvalidPC) := by
  have h1 : 1 ≤ s.rom.length := by omega
  by_cases h0 : read_register s r = 0
  · have hc : ¬ (get_operand_value s target > s.rom.length - 1) := by omega
    simp [op_bez, set_program_counter_conditionally, checked_sub, h0, h1, hc]
  · by_cases h2 : s.program_counter + 1 < s.rom.length
    · have hc : ¬ (s.program_counter + 1 > s.rom.length - 1) := by omega
      simp [op_bez, set_program_counter_conditionally, checked_sub, h0, h1, h2, hc]
    · have hc : s.program_counter + 1 > s.rom.length - 1 := by omega
      simp [op_bez, set_program_counter_conditionally, checked_sub, h0, h1, h2, hc]

/-- Witness for C5's amended theorem: the not-taken branch at the last ROM
index of the concrete state halts with `InvalidPC`. -/
theorem op_bez_spec_w :
    get_operand_value stateC5 (.Immediate 0) < stateC5.rom.length ∧
    op_bez stateC5 (.Immediate 0) Register.A = some (stateC5, .Halt .InvalidPC) := by
  refine ⟨by decide, ?_⟩
  have h := op_bez_spec stateC5 (.Immediate 0) Register.A (by decide)
  simpa using h

/-- C6: `JSR v` halts with `StackOverflow` (stack and PC untouched) when the
stack holds 16 entries; otherwise an out-of-range target halts with
`InvalidPC` without pushing; otherwise the old program counter is pushed and
the program counter is set to the target.  The hypothesis `0 < |ROM|` states
that some instruction was fetched to be executed. -/
theorem op_jsr_spec (s : TpuState) (target : OperandValueType)
    (h : 0 < s.rom.length) :
    op_jsr s target =
      if s.stack.length = 16
      then some (s, .Halt .StackOverflow)
      else if get_operand_value s target < s.rom.length
      then some ({ s with program_counter := get_operand_value s target,
                          stack := s.stack ++ [s.program_counter % 65536] },
                 .PCModified)
      else some (s, .Halt .InvalidPC) := by
  have h1 : 1 ≤ s.rom.length := h
  by_cases hf : s.stack.length = 16
  · simp [op_jsr, STACK_SIZE, hf]
  · by_cases hv : get_operand_value s target < s.rom.length
    · have hc : ¬ (get_operand_value s target > s.rom.length - 1) := by omega
      simp [op_jsr, set_program_counter_conditionally, checked_sub, push,
        STACK_SIZE, hf, hv, hc, h1]
    · have hc : get_operand_value s target > s.rom.length - 1 := by omega
      simp [op_jsr, set_program_counter_conditionally, checked_sub,
        STACK_SIZE, hf, hv, hc, h1]

/-- Witness for C6 at the concrete state: `JSR 2` from PC 1 pushes 1 and jumps
to 2. -/
theorem op_jsr_spec_w :
    0 < stateC6.rom.length ∧
    op_jsr stateC6 (.Immediate 2) =
      some ({ stateC6 with program_counter := 2, stack := [1] }, .PCModified) := by
  refine ⟨by decide, ?_⟩
  have h := op_jsr_spec stateC6 (.Immediate 2) (by decide)
  simpa using h

/-- C7: `XMIT` with the outgoing queue at capacity 8 leaves the queue
unchanged and does not halt; below capacity it appends exactly one packet
`{sender = my address, target = target register, data = operand}` to the
back; hence the queue length never grows beyond `max (current length) 8`. -/
theorem op_xmit_spec (s : TpuState) (tr : Register) (d : OperandValueType) :
    op_xmit s tr d =
      (if s.outgoing_packets.length < 8
       then { s with outgoing_packets :=
                s.outgoing_packets ++
                  [⟨s.network_address, read_register s tr, get_operand_value s d⟩] }
       else s, .PCAdvance) ∧
    (op_xmit s tr d).1.outgoing_packets.length ≤
      max s.outgoing_packets.length 8 := by
  constructor
  · by_cases hq : s.outgoing_packets.length < 8
    · simp [op_xmit, send_packet, NET_BUFFER_SIZE, hq]
    · simp [op_xmit, NET_BUFFER_SIZE, hq]
  · by_cases hq : s.outgoing_packets.length < 8
    · simp only [op_xmit, send_packet, NET_BUFFER_SIZE, hq, if_pos]
      simp
      omega
    · simp [op_xmit, NET_BUFFER_SIZE, hq]

/-- Reading back the register slot just written, for in-range register
indices. -/
theorem read_write_register (t : TpuState) (r : Register) (v : Nat)
    (h : r.toNat < t.registers.length) :
    read_register (write_register t r v) r = v := by
  simp only [read_register, write_register]
  exact getD_set_self _ _ _ h

/-- C9: with an empty ROM the first tick of a fresh TPU panics (fetching
`rom[0]` is out of bounds) for every decode dispatch and executor, and every
jump or branch body panics on the `rom.len() - 1` subtraction; no halt reason
is ever produced (`none`, not `Halt`). -/
theorem empty_rom_panics :
    (∀ (dispatch : Instruction → TpuState → Option TpuState)
       (execFn : DecodedOpcode → TpuState → Option TpuState)
       (na : Nat) (apc dpc : List Bool),
       tick dispatch execFn (TPU_new na apc dpc []) = none) ∧
    (∀ (s : TpuState) (cond : Bool) (addr : Nat), s.rom = [] →
       set_program_counter_conditionally s cond addr = none) ∧
    (∀ (s : TpuState) (v : OperandValueType), s.rom = [] →
       op_jmp s v = none) := by
  refine ⟨?_, ?_, ?_⟩
  · intro dispatch execFn na apc dpc
    simp [tick, TPU_new, decode_next]
  · intro s cond addr h
    simp [set_program_counter_conditionally, checked_sub, h]
  · intro s v h
    simp [op_jmp, set_program_counter_conditionally, checked_sub, h]

/-- Witness for C9 at concrete inputs: an empty-program TPU and an empty-ROM
branch body. -/
theorem empty_rom_panics_w :
    tick (fun _ s => some s) (fun _ s => some s)
      (TPU_new 1 (List.replicate 4 false) (List.replicate 8 false) []) = none ∧
    set_program_counter_conditionally stateC1 true 5 = none := by
  exact ⟨empty_rom_panics.1 _ _ 1 _ _,
         empty_rom_panics.2.1 stateC1 true 5 rfl⟩

set_option maxRecDepth 4000 in
/-- C10 counterexample: `LDOI X, 0, X` with `X = 5` and `RAM[5] = 42` leaves
`X = 43` — the loaded value plus one — not the previous value plus one (6),
and the result depends on the RAM contents. -/
theorem op_ldoi_alias_cex :
    read_register (op_ldoi stateC10 Register.X (.Immediate 0) Register.X).1
      Register.X = 43 ∧
    read_register stateC10 Register.X = 5 ∧ (43 : Nat) ≠ 5 + 1 := by
  refine ⟨by decide, by decide, by decide⟩

/-- C10 (amended): when the destination register of `LDOI` is also the offset
register, the loaded value is not lost: the register ends holding the loaded
value plus one (wrapping), because the post-increment re-reads the register
after the load and so increments the freshly loaded value. -/
theorem op_ldoi_alias (s : TpuState) (r : Register) (src : OperandValueType)
    (h : r.toNat < s.registers.length) :
    read_register (op_ldoi s r src r).1 r =
      wrapping_add16 (read_ram s (get_operand_value s src + read_register s r))
        1 := by
  simp only [op_ldoi, op_ldo]
  rw [read_write_register _ _ _ h]
  exact read_write_register _ _ _ (by simpa [write_register] using h)

set_option maxRecDepth 4000 in
/-- Witness for C10's amended theorem at the concrete aliased state. -/
theorem op_ldoi_alias_w :
    read_register (op_ldoi stateC10 Register.X (.Immediate 0) Register.X).1
      Register.X = wrapping_add16 (read_ram stateC10 5) 1 := by
  have h := op_ldoi_alias stateC10 Register.X (.Immediate 0) (by decide)
  rw [h]
  decide

/-- A decimal digit always converts in radix 10. -/
theorem char_to_digit_dec (c : Char) (h : decimal_digit c) :
    (char_to_digit c 10).isSome = true := by
  obtain ⟨h1, h2⟩ := h
  unfold char_to_digit
  rw [if_pos ⟨h1, h2⟩, if_pos (by omega)]
  rfl

/-- A hex digit always converts in radix 16. -/
theorem char_to_digit_hex (c : Char) (h : hex_digit c) :
    (char_to_digit c 16).isSome = true := by
  unfold char_to_digit
  rcases h with ⟨h1, h2⟩ | ⟨h1, h2⟩ | ⟨h1, h2⟩
  · rw [if_pos ⟨h1, h2⟩, if_pos (by omega)]
    rfl
  · rw [if_neg (by omega), if_pos ⟨h1, by omega⟩, if_pos (by omega)]
    rfl
  · rw [if_neg (by omega), if_neg (by omega), if_pos ⟨h1, by omega⟩,
      if_pos (by omega)]
    rfl

/-- A binary digit always converts in radix 2. -/
theorem char_to_digit_bin (c : Char) (h : binary_digit c) :
    (char_to_digit c 2).isSome = true := by
  unfold char_to_digit
  rcases h with h | h
  · rw [if_pos (by omega), if_pos (by omega)]
    rfl
  · rw [if_pos (by omega), if_pos (by omega)]
    rfl

/-- The accumulated numeral never shrinks as digits are consumed. -/
theorem foldl_step_le (radix : Nat) (hr : 1 ≤ radix) :
    ∀ (cs : List Char) (acc : Nat),
      acc ≤ cs.foldl (from_digit_step radix) acc := by
  intro cs
  induction cs with
  | nil => intro acc; simp
  | cons c rest ih =>
    intro acc
    have h1 : acc ≤ from_digit_step radix acc c := by
      have : acc * 1 ≤ acc * radix := Nat.mul_le_mul_left acc hr
      unfold from_digit_step
      omega
    calc acc ≤ from_digit_step radix acc c := h1
    _ ≤ List.foldl (from_digit_step radix) (from_digit_step radix acc c) rest :=
        ih _
    _ = List.foldl (from_digit_step radix) acc (c :: rest) := by
        rw [List.foldl_cons]

/-- The checked accumulation loop of `u16::from_str_radix` succeeds exactly
when the denoted value fits in a `u16`, on strings of valid digits. -/
theorem from_str_radix_go_spec (radix : Nat) (hr : 1 ≤ radix) :
    ∀ (cs : List Char) (acc : Nat), acc ≤ 65535 →
      (∀ c ∈ cs, (char_to_digit c radix).isSome = true) →
      from_str_radix_go radix acc cs =
        if cs.foldl (from_digit_step radix) acc ≤ 65535
        then some (cs.foldl (from_digit_step radix) acc) else none := by
  intro cs
  induction cs with
  | nil =>
    intro acc hacc _
    simp [from_str_radix_go, hacc]
  | cons c rest ih =>
    intro acc hacc hval
    obtain ⟨d, hd⟩ := Option.isSome_iff_exists.mp (hval c (by simp))
    have hstep : from_digit_step radix acc c = acc * radix + d := by
      simp [from_digit_step, hd]
    simp only [from_str_radix_go, hd, List.foldl_cons, hstep]
    by_cases hover : 65535 < acc * radix + d
    · rw [if_pos hover]
      have hge := foldl_step_le radix hr rest (acc * radix + d)
      rw [if_neg (by omega)]
    · rw [if_neg hover]
      exact ih (acc * radix + d) (by omega) (fun x hx => hval x (by simp [hx]))

/-- On a nonempty token `from_str_radix_u16` runs the accumulation loop. -/
theorem from_str_radix_u16_nonempty (radix : Nat) (cs : List Char)
    (h : cs ≠ []) :
    from_str_radix_u16 radix cs = from_str_radix_go radix 0 cs := by
  cases cs with
  | nil => exact absurd rfl h
  | cons c rest => rfl

/-- Stripping the `0x` marker once. -/
theorem trim_0x_marker (ds : List Char) :
    trim_0x ('0' :: 'x' :: ds) = trim_0x ds := by
  simp [trim_0x]

/-- A string of hex digits holds no further `0x` marker to strip. -/
theorem trim_0x_hexdigits (ds : List Char) (h : ∀ c ∈ ds, hex_digit c) :
    trim_0x ds = ds := by
  cases ds with
  | nil => rfl
  | cons a t =>
    cases t with
    | nil => rfl
    | cons b r =>
      have hb : hex_digit b := h b (by simp)
      have hne : ¬ (a = '0' ∧ b = 'x') := by
        rintro ⟨-, rfl⟩
        exact absurd hb (by decide)
      simp [trim_0x, hne]

/-- Stripping the `0b` marker once. -/
theorem trim_0b_marker (ds : List Char) :
    trim_0b ('0' :: 'b' :: ds) = trim_0b ds := by
  simp [trim_0b]

/-- A string of binary digits holds no further `0b` marker to strip. -/
theorem trim_0b_bindigits (ds : List Char) (h : ∀ c ∈ ds, binary_digit c) :
    trim_0b ds = ds := by
  cases ds with
  | nil => rfl
  | cons a t =>
    cases t with
    | nil => rfl
    | cons b r =>
      have hb : binary_digit b := h b (by simp)
      have hne : ¬ (a = '0' ∧ b = 'b') := by
        rintro ⟨-, rfl⟩
        exact absurd hb (by decide)
      simp [trim_0b, hne]

/-- C8: a numeric literal token in operand position — decimal with no prefix,
hex after a `0x` marker, binary after a `0b` marker — parses to `Immediate`
of its numeric value when that value fits in a `u16`, and is a parse error
(propagated by `parse_instruction` and `parse_program`) when it does not. -/
theorem parse_numeric_literals :
    (∀ cs : List Char, cs ≠ [] → (∀ c ∈ cs, decimal_digit c) →
      parse_any_operand_from_pair .decimal_number cs =
        if numeral_value 10 cs ≤ 65535
        then some (.Immediate (numeral_value 10 cs)) else none) ∧
    (∀ ds : List Char, ds ≠ [] → (∀ c ∈ ds, hex_digit c) →
      parse_any_operand_from_pair .hex_number ('0' :: 'x' :: ds) =
        if numeral_value 16 ds ≤ 65535
        then some (.Immediate (numeral_value 16 ds)) else none) ∧
    (∀ ds : List Char, ds ≠ [] → (∀ c ∈ ds, binary_digit c) →
      parse_any_operand_from_pair .binary_number ('0' :: 'b' :: ds) =
        if numeral_value 2 ds ≤ 65535
        then some (.Immediate (numeral_value 2 ds)) else none) := by
  refine ⟨?_, ?_, ?_⟩
  · intro cs hne hdig
    simp only [parse_any_operand_from_pair]
    rw [from_str_radix_u16_nonempty 10 cs hne,
      from_str_radix_go_spec 10 (by omega) cs 0 (by omega)
        (fun c hc => char_to_digit_dec c (hdig c hc))]
    unfold numeral_value
    by_cases hle : cs.foldl (from_digit_step 10) 0 ≤ 65535 <;> simp [hle]
  · intro ds hne hdig
    simp only [parse_any_operand_from_pair]
    rw [trim_0x_marker, trim_0x_hexdigits ds hdig,
      from_str_radix_u16_nonempty 16 ds hne,
      from_str_radix_go_spec 16 (by omega) ds 0 (by omega)
        (fun c hc => char_to_digit_hex c (hdig c hc))]
    unfold numeral_value
    by_cases hle : ds.foldl (from_digit_step 16) 0 ≤ 65535 <;> simp [hle]
  · intro ds hne hdig
    simp only [parse_any_operand_from_pair]
    rw [trim_0b_marker, trim_0b_bindigits ds hdig,
      from_str_radix_u16_nonempty 2 ds hne,
      from_str_radix_go_spec 2 (by omega) ds 0 (by omega)
        (fun c hc => char_to_digit_bin c (hdig c hc))]
    unfold numeral_value
    by_cases hle : ds.foldl (from_digit_step 2) 0 ≤ 65535 <;> simp [hle]

/-- Witness for C8: the decimal token `70000` is rejected, while `0xFF` and
`0b10` parse to their values. -/
theorem parse_numeric_literals_w :
    parse_any_operand_from_pair .decimal_number ['7', '0', '0', '0', '0'] =
      none ∧
    parse_any_operand_from_pair .hex_number ['0', 'x', 'F', 'F'] =
      some (.Immediate 255) ∧
    parse_any_operand_from_pair .binary_number ['0', 'b', '1', '0'] =
      some (.Immediate 2) := by
  refine ⟨?_, ?_, ?_⟩
  · have h := parse_numeric_literals.1 ['7', '0', '0', '0', '0']
      (by decide) (by decide)
    rw [h]
    decide
  · have h := parse_numeric_literals.2.1 ['F', 'F'] (by decide) (by decide)
    rw [h]
    decide
  · have h := parse_numeric_literals.2.2 ['1', '0'] (by decide) (by decide)
    rw [h]
    decide

end Taraffic
